import Mathlib

/-!
Shallow embedding of nodecg's graphics `RegistrationCoordinator`
(src/server/graphics/index.ts): the registry of graphics instances, the
`graphic:registerSocket`, `graphic:queryAvailability` and `disconnect`
socket handlers, the delayed reap (`_removeRegistration`), and the
bundle-change rescan (`_updateInstanceStatuses`), together with the
helper functions `findGraphicManifest`, `calcBundleGitMismatch` and
`calcBundleVersionMismatch`.

Modelling conventions:
* the replicant value `this._instancesRep.value` (a JS array of
  `GraphicsInstance`) is a `List GraphicsInstance`, mutated by explicit
  state passing; `push` appends at the end, `find` returns the first
  match, `splice(i, 1)` removes the element at the first matching index;
* a JS `TypeError` (dereferencing `undefined`) is `Option.none` on the
  result of the function that throws, and a handler invocation that
  throws leaves the state it had not yet mutated unchanged;
* the field `open` of `GraphicsInstance` is called `openFlag` because
  `open` is a Lean keyword; `NodeCG.Bundle.GitData` values that may be
  `undefined`/`null` are `Option GitData`.
-/

namespace NodeCG

/-- Git metadata of a bundle (`NodeCG.Bundle.GitData`); the coordinator
only ever compares the `hash` field. -/
structure GitData where
  hash : String
  branch : String
deriving DecidableEq, Repr

/-- One entry of a bundle manifest's `graphics` array
(`NodeCG.Bundle.Graphic`); `singleInstance` is optional in the manifest
and `Boolean(...)`-coerced by the coordinator, so it is a plain `Bool`
here. -/
structure Graphic where
  url : String
  singleInstance : Bool
deriving DecidableEq, Repr

/-- The bundle metadata the coordinator consumes from the bundle
manager: name, version, optional git data and declared graphics. -/
structure Bundle where
  name : String
  version : String
  git : Option GitData
  graphics : List Graphic
deriving DecidableEq, Repr

/-- A `graphic:registerSocket` request (`GraphicRegRequest` from
types/socket-protocol); the handler spreads it into the new record, so
it carries every record field the handler does not overwrite. -/
structure GraphicRegRequest where
  bundleName : String
  pathName : String
  bundleVersion : String
  bundleGit : Option GitData
  timestamp : Nat
deriving DecidableEq, Repr

/-- One registration record (`GraphicsInstance` in the source). -/
structure GraphicsInstance where
  ipv4 : String
  timestamp : Nat
  bundleName : String
  bundleVersion : String
  bundleGit : Option GitData
  pathName : String
  singleInstance : Bool
  socketId : String
  openFlag : Bool
  potentiallyOutOfDate : Bool
deriving DecidableEq, Repr

/-- The registry table: the value of the `graphics:instances` replicant. -/
abbrev Registry := List GraphicsInstance

/-- The bundle manager's `bundles.find(bundleName)`: first bundle with
the given name. -/
def findBundle (bs : List Bundle) (bundleName : String) : Option Bundle :=
  bs.find? (fun b => b.name == bundleName)

/-- Source `findGraphicManifest({pathName, bundleName})`: resolve the
bundle, then the first declared graphic whose `url` equals `pathName`. -/
def findGraphicManifest (bs : List Bundle) (pathName bundleName : String) :
    Option Graphic :=
  match findBundle bs bundleName with
  | none => none
  | some bundle => bundle.graphics.find? (fun g => g.url == pathName)

/-- Source `calcBundleGitMismatch(bundle, regRequest)`.  The source returns
`true` when exactly one side has git data, and otherwise evaluates
`regRequest.bundleGit!.hash !== bundle.git!.hash`; when both sides are
absent that line dereferences `undefined` and throws, which is `none`
here. -/
def calcBundleGitMismatch (bundle : Bundle) (reqGit : Option GitData) :
    Option Bool :=
  match reqGit, bundle.git with
  | some _, none => some true
  | none, some _ => some true
  | some a, some b => some (a.hash != b.hash)
  | none, none => none

/-- Source `calcBundleVersionMismatch(bundle, regRequest)`. -/
def calcBundleVersionMismatch (bundle : Bundle) (reqVersion : String) : Bool :=
  bundle.version != reqVersion

/-- JS `String.prototype.endsWith`, modelled over the character list so
that it evaluates inside the kernel. -/
def strEndsWith (s suffix : String) : Bool :=
  suffix.data.isSuffixOf s.data

/-- The `pathName` normalization at the top of the register handler:
a path ending in `/<bundleName>/graphics/` gets `index.html` appended. -/
def normalizePathName (bundleName pathName : String) : String :=
  if strEndsWith pathName ("/" ++ bundleName ++ "/graphics/") then
    pathName ++ "index.html"
  else
    pathName

/-- Source `_findRegistrationBySocketId`. -/
def findRegistrationBySocketId (st : Registry) (sid : String) :
    Option GraphicsInstance :=
  st.find? (fun i => i.socketId == sid)

/-- Source `_findOpenRegistrationByPathName`. -/
def findOpenRegistrationByPathName (st : Registry) (p : String) :
    Option GraphicsInstance :=
  st.find? (fun i => i.pathName == p && i.openFlag)

/-- Source `_addRegistration`: push the record with `open` forced to
`true`. -/
def addRegistration (st : Registry) (r : GraphicsInstance) : Registry :=
  st ++ [{ r with openFlag := true }]

/-- Source `_removeRegistration(socketId)`: `findIndex` + `splice(i, 1)` —
remove the first record with the given socket id, with no check of its
`open` flag; a no-op when none exists. -/
def removeRegistration : Registry → String → Registry
  | [], _ => []
  | i :: rest, sid =>
    if i.socketId == sid then rest else i :: removeRegistration rest sid

/-- In-place mutation `existingSocketRegistration.open = true` on the
record returned by `_findRegistrationBySocketId` (the first record with
the given socket id). -/
def markOpenBySocketId : Registry → String → Registry
  | [], _ => []
  | i :: rest, sid =>
    if i.socketId == sid then { i with openFlag := true } :: rest
    else i :: markOpenBySocketId rest sid

/-- In-place mutation `registration.open = false` in the disconnect
handler (again on the first record with the given socket id). -/
def markClosedBySocketId : Registry → String → Registry
  | [], _ => []
  | i :: rest, sid =>
    if i.socketId == sid then { i with openFlag := false } :: rest
    else i :: markClosedBySocketId rest sid

/-- The fall-through part of the register handler (after the
exclusivity check): reopen the caller's existing record if it has one,
otherwise compute staleness and append a fresh record.  `none` is the
`TypeError` thrown by `calcBundleGitMismatch` when neither side has git
data (JS `||` evaluates the git mismatch first). -/
def registerFallThrough (bundle : Bundle) (graphicManifest : Graphic)
    (st : Registry) (sid ipv4 : String) (req : GraphicRegRequest) :
    Option (Bool × Registry) :=
  match findRegistrationBySocketId st sid with
  | some _ => some (true, markOpenBySocketId st sid)
  | none =>
    match calcBundleGitMismatch bundle req.bundleGit with
    | none => none
    | some gitMismatch =>
      some (true, addRegistration st
        { ipv4 := ipv4
          timestamp := req.timestamp
          bundleName := req.bundleName
          bundleVersion := req.bundleVersion
          bundleGit := req.bundleGit
          -- the spread `...regRequest` supplies the request's original
          -- pathName, not the normalized local variable
          pathName := req.pathName
          singleInstance := graphicManifest.singleInstance
          socketId := sid
          openFlag := true
          potentiallyOutOfDate :=
            gitMismatch || calcBundleVersionMismatch bundle req.bundleVersion })

/-- The `graphic:registerSocket` handler.  Result: `some (accepted,
newState)`, or `none` when the handler throws.  Mirrors the source: the
bundle and manifest lookups decline on failure without touching state;
an open registration for the normalized path combined with a
`singleInstance` manifest answers `true` to its own socket and
`!existing.open` (always `false`) to any other; otherwise it falls
through to reopen-or-create. -/
def registerSocket (bs : List Bundle) (st : Registry) (sid ipv4 : String)
    (req : GraphicRegRequest) : Option (Bool × Registry) :=
  let pathName := normalizePathName req.bundleName req.pathName
  match findBundle bs req.bundleName with
  | none => some (false, st)
  | some bundle =>
    match findGraphicManifest bs pathName req.bundleName with
    | none => some (false, st)
    | some graphicManifest =>
      match findOpenRegistrationByPathName st pathName with
      | some existingPathRegistration =>
        if graphicManifest.singleInstance then
          if existingPathRegistration.socketId == sid then some (true, st)
          else some (!existingPathRegistration.openFlag, st)
        else registerFallThrough bundle graphicManifest st sid ipv4 req
      | none => registerFallThrough bundle graphicManifest st sid ipv4 req

/-- The `graphic:queryAvailability` handler: the callback value is
`!this._findOpenRegistrationByPathName(pathName)`. -/
def queryAvailability (st : Registry) (p : String) : Bool :=
  !(findOpenRegistrationByPathName st p).isSome

/-- The synchronous part of the `disconnect` handler: if the socket has
a record, set its `open` to `false` (the one-second reap timer it also
schedules is the separate `removeRegistration` step). -/
def disconnectStep (st : Registry) (sid : String) : Registry :=
  match findRegistrationBySocketId st sid with
  | none => st
  | some _ => markClosedBySocketId st sid

/-- The body of `_updateInstanceStatuses` for one record: skip records
whose bundle or manifest no longer resolves, otherwise recompute
`potentiallyOutOfDate` and `singleInstance`; `none` is the `TypeError`
from `calcBundleGitMismatch`. -/
def updateInstanceStatus (bs : List Bundle) (i : GraphicsInstance) :
    Option GraphicsInstance :=
  match findBundle bs i.bundleName with
  | none => some i
  | some bundle =>
    match findGraphicManifest bs i.pathName i.bundleName with
    | none => some i
    | some graphicManifest =>
      match calcBundleGitMismatch bundle i.bundleGit with
      | none => none
      | some gitMismatch =>
        some { i with
          potentiallyOutOfDate :=
            gitMismatch || calcBundleVersionMismatch bundle i.bundleVersion
          singleInstance := graphicManifest.singleInstance }

/-- Source `_updateInstanceStatuses` (the `bundleChanged`/`gitChanged`
handler): update every record in order; a throw aborts the whole
rescan. -/
def updateInstanceStatuses (bs : List Bundle) : Registry → Option Registry
  | [] => some []
  | i :: rest =>
    match updateInstanceStatus bs i with
    | none => none
    | some i2 =>
      match updateInstanceStatuses bs rest with
      | none => none
      | some rest2 => some (i2 :: rest2)

/-- The socket events that mutate the registry, for trace-based
invariants: a `graphic:registerSocket` call, the synchronous part of a
`disconnect`, and the firing of the reap timer a disconnect scheduled. -/
inductive RegEvent where
  | reg (sid ipv4 : String) (req : GraphicRegRequest)
  | disc (sid : String)
  | reap (sid : String)
deriving DecidableEq, Repr

/-- One event against the registry.  A register call that throws has
mutated nothing when it throws, so it leaves the state unchanged. -/
def step (bs : List Bundle) (st : Registry) : RegEvent → Registry
  | .reg sid ipv4 req =>
    match registerSocket bs st sid ipv4 req with
    | some (_, st2) => st2
    | none => st
  | .disc sid => disconnectStep st sid
  | .reap sid => removeRegistration st sid

/-- Run a trace of events. -/
def run (bs : List Bundle) (st : Registry) : List RegEvent → Registry
  | [] => st
  | e :: es => run bs (step bs st e) es

/-- An event concerns path `p` of bundle `b` when it is not a register
call for some other graphic. -/
def concernsPath (p b : String) : RegEvent → Bool
  | .reg _ _ req => req.pathName == p && req.bundleName == b
  | .disc _ => true
  | .reap _ => true

/-- Number of open records for a path. -/
def openCount (st : Registry) (p : String) : Nat :=
  (st.filter (fun i => i.pathName == p && i.openFlag)).length

/-- Number of records owned by a socket id. -/
def socketCount (st : Registry) (sid : String) : Nat :=
  (st.filter (fun i => i.socketId == sid)).length

/-! ### Lemmas about the lookup helpers -/

theorem findOpen_eq_none_iff {st : Registry} {p : String} :
    findOpenRegistrationByPathName st p = none ↔
      ∀ i ∈ st, ¬(i.pathName = p ∧ i.openFlag = true) := by
  simp [findOpenRegistrationByPathName, List.find?_eq_none]

theorem findOpen_some_spec {st : Registry} {p : String} {e : GraphicsInstance}
    (h : findOpenRegistrationByPathName st p = some e) :
    e ∈ st ∧ e.pathName = p ∧ e.openFlag = true := by
  refine ⟨List.mem_of_find?_eq_some h, ?_⟩
  have := List.find?_some h
  simpa using this

theorem findSid_eq_none_iff {st : Registry} {sid : String} :
    findRegistrationBySocketId st sid = none ↔ ∀ i ∈ st, i.socketId ≠ sid := by
  simp [findRegistrationBySocketId, List.find?_eq_none]

theorem findSid_some_spec {st : Registry} {sid : String} {e : GraphicsInstance}
    (h : findRegistrationBySocketId st sid = some e) :
    e ∈ st ∧ e.socketId = sid := by
  refine ⟨List.mem_of_find?_eq_some h, ?_⟩
  have := List.find?_some h
  simpa using this

theorem findSid_isSome_of_mem {st : Registry} {sid : String}
    {a : GraphicsInstance} (ha : a ∈ st) (hsid : a.socketId = sid) :
    (findRegistrationBySocketId st sid).isSome := by
  cases h : findRegistrationBySocketId st sid with
  | none => exact absurd hsid (findSid_eq_none_iff.mp h a ha)
  | some e => rfl

theorem openCount_eq_zero_iff {st : Registry} {p : String} :
    openCount st p = 0 ↔ ∀ i ∈ st, ¬(i.pathName = p ∧ i.openFlag = true) := by
  simp [openCount, List.length_eq_zero, List.filter_eq_nil_iff]

theorem openCount_eq_zero_of_findOpen_none {st : Registry} {p : String}
    (h : findOpenRegistrationByPathName st p = none) : openCount st p = 0 :=
  openCount_eq_zero_iff.mpr (findOpen_eq_none_iff.mp h)

theorem openCount_append {st st2 : Registry} {p : String} :
    openCount (st ++ st2) p = openCount st p + openCount st2 p := by
  simp [openCount, List.filter_append]

/-- If at most one record carries a socket id and some member does, every
member carrying it is that very record. -/
theorem socketCount_le_one_unique {st : Registry} {sid : String}
    {a : GraphicsInstance} (hcnt : socketCount st sid ≤ 1) (ha : a ∈ st)
    (hsid : a.socketId = sid) :
    ∀ i ∈ st, i.socketId = sid → i = a := by
  intro i hi hisid
  have hma : a ∈ st.filter (fun i => i.socketId == sid) := by
    simp [List.mem_filter, ha, hsid]
  have hmi : i ∈ st.filter (fun i => i.socketId == sid) := by
    simp [List.mem_filter, hi, hisid]
  have hlen : (st.filter (fun i => i.socketId == sid)).length = 1 := by
    have h1 : 1 ≤ (st.filter (fun i => i.socketId == sid)).length :=
      List.length_pos_of_mem hma
    exact le_antisymm hcnt h1
  obtain ⟨b, hb⟩ := List.length_eq_one.mp hlen
  rw [hb] at hma hmi
  simp only [List.mem_singleton] at hma hmi
  rw [hmi, hma]

/-! ### Lemmas about the in-place mutations and the reap -/

theorem set_openFlag_self {i : GraphicsInstance} {b : Bool}
    (h : i.openFlag = b) : { i with openFlag := b } = i := by
  cases i
  simp_all

theorem mem_markOpen {st : Registry} {sid : String} {i : GraphicsInstance}
    (h : i ∈ markOpenBySocketId st sid) :
    i ∈ st ∨ ∃ j ∈ st, j.socketId = sid ∧ i = { j with openFlag := true } := by
  induction st with
  | nil => simp [markOpenBySocketId] at h
  | cons hd tl ih =>
    by_cases hhd : hd.socketId = sid
    · have hbeq : (hd.socketId == sid) = true := by simp [hhd]
      simp only [markOpenBySocketId, hbeq, if_true] at h
      rcases List.mem_cons.mp h with h | h
      · exact Or.inr ⟨hd, List.mem_cons_self hd tl, hhd, h⟩
      · exact Or.inl (List.mem_cons_of_mem hd h)
    · simp only [markOpenBySocketId, beq_iff_eq, hhd, if_false] at h
      rcases List.mem_cons.mp h with h | h
      · exact Or.inl (h ▸ List.mem_cons_self hd tl)
      · rcases ih h with h | ⟨j, hj, hjsid, hij⟩
        · exact Or.inl (List.mem_cons_of_mem hd h)
        · exact Or.inr ⟨j, List.mem_cons_of_mem hd hj, hjsid, hij⟩

theorem mem_markClosed {st : Registry} {sid : String} {i : GraphicsInstance}
    (h : i ∈ markClosedBySocketId st sid) :
    i ∈ st ∨ ∃ j ∈ st, j.socketId = sid ∧ i = { j with openFlag := false } := by
  induction st with
  | nil => simp [markClosedBySocketId] at h
  | cons hd tl ih =>
    by_cases hhd : hd.socketId = sid
    · have hbeq : (hd.socketId == sid) = true := by simp [hhd]
      simp only [markClosedBySocketId, hbeq, if_true] at h
      rcases List.mem_cons.mp h with h | h
      · exact Or.inr ⟨hd, List.mem_cons_self hd tl, hhd, h⟩
      · exact Or.inl (List.mem_cons_of_mem hd h)
    · simp only [markClosedBySocketId, beq_iff_eq, hhd, if_false] at h
      rcases List.mem_cons.mp h with h | h
      · exact Or.inl (h ▸ List.mem_cons_self hd tl)
      · rcases ih h with h | ⟨j, hj, hjsid, hij⟩
        · exact Or.inl (List.mem_cons_of_mem hd h)
        · exact Or.inr ⟨j, List.mem_cons_of_mem hd hj, hjsid, hij⟩

theorem mem_of_mem_remove {st : Registry} {sid : String} {i : GraphicsInstance}
    (h : i ∈ removeRegistration st sid) : i ∈ st := by
  induction st with
  | nil => simpa [removeRegistration] using h
  | cons hd tl ih =>
    by_cases hhd : hd.socketId = sid
    · have hbeq : (hd.socketId == sid) = true := by simp [hhd]
      simp only [removeRegistration, hbeq, if_true] at h
      exact List.mem_cons_of_mem hd h
    · simp only [removeRegistration, beq_iff_eq, hhd, if_false] at h
      rcases List.mem_cons.mp h with h | h
      · exact h ▸ List.mem_cons_self hd tl
      · exact List.mem_cons_of_mem hd (ih h)

/-- When a socket id occurs on at most one record, every record still
carrying that id after `markClosedBySocketId` is closed. -/
theorem markClosed_closes {st : Registry} {sid : String}
    (hcnt : socketCount st sid ≤ 1) :
    ∀ i ∈ markClosedBySocketId st sid, i.socketId = sid → i.openFlag = false := by
  induction st with
  | nil => simp [markClosedBySocketId]
  | cons hd tl ih =>
    by_cases hhd : hd.socketId = sid
    · intro i hi hisid
      have hbeq : (hd.socketId == sid) = true := by simp [hhd]
      simp only [markClosedBySocketId, hbeq, if_true] at hi
      rcases List.mem_cons.mp hi with h | h
      · rw [h]
      · exfalso
        have h2 : 2 ≤ socketCount (hd :: tl) sid := by
          have hmi : i ∈ tl.filter (fun j => j.socketId == sid) := by
            simp [List.mem_filter, h, hisid]
          have h1 : 1 ≤ (tl.filter (fun j => j.socketId == sid)).length :=
            List.length_pos_of_mem hmi
          simp only [socketCount, List.filter_cons, hbeq, if_true,
            List.length_cons]
          omega
        omega
    · intro i hi hisid
      simp only [markClosedBySocketId, beq_iff_eq, hhd, if_false] at hi
      rcases List.mem_cons.mp hi with h | h
      · exact absurd (h ▸ hisid) hhd
      · have hcnt2 : socketCount tl sid ≤ 1 := by
          simp only [socketCount, List.filter_cons, beq_iff_eq, hhd,
            if_false] at hcnt ⊢
          exact hcnt
        exact ih hcnt2 i h hisid

/-- Reopening is the identity when every record of the socket is
already open. -/
theorem markOpen_eq_self {st : Registry} {sid : String}
    (h : ∀ i ∈ st, i.socketId = sid → i.openFlag = true) :
    markOpenBySocketId st sid = st := by
  induction st with
  | nil => rfl
  | cons hd tl ih =>
    by_cases hhd : hd.socketId = sid
    · have hbeq : (hd.socketId == sid) = true := by simp [hhd]
      simp only [markOpenBySocketId, hbeq, if_true]
      rw [set_openFlag_self (h hd (List.mem_cons_self hd tl) hhd)]
    · simp only [markOpenBySocketId, beq_iff_eq, hhd, if_false]
      rw [ih (fun i hi => h i (List.mem_cons_of_mem hd hi))]

theorem openCount_markOpen_le {st : Registry} {sid p : String} :
    openCount (markOpenBySocketId st sid) p ≤ openCount st p + 1 := by
  induction st with
  | nil => simp [markOpenBySocketId, openCount]
  | cons hd tl ih =>
    by_cases hhd : hd.socketId = sid
    · simp only [markOpenBySocketId, hhd, beq_self_eq_true, if_true,
        openCount, List.filter_cons]
      by_cases hp : hd.pathName = p <;> by_cases ho : hd.openFlag <;>
        simp [hp, ho, List.length_cons] <;> omega
    · simp only [markOpenBySocketId, beq_iff_eq, hhd, if_false, openCount,
        List.filter_cons] at *
      by_cases hp : (hd.pathName == p && hd.openFlag) = true <;>
        simp [hp, List.length_cons] <;> omega

theorem openCount_markClosed_le {st : Registry} {sid p : String} :
    openCount (markClosedBySocketId st sid) p ≤ openCount st p := by
  induction st with
  | nil => simp [markClosedBySocketId, openCount]
  | cons hd tl ih =>
    by_cases hhd : hd.socketId = sid
    · simp only [markClosedBySocketId, hhd, beq_self_eq_true, if_true,
        openCount, List.filter_cons]
      by_cases hp : hd.pathName = p <;> by_cases ho : hd.openFlag <;>
        simp [hp, ho, List.length_cons] <;> omega
    · simp only [markClosedBySocketId, beq_iff_eq, hhd, if_false, openCount,
        List.filter_cons] at *
      by_cases hp : (hd.pathName == p && hd.openFlag) = true <;>
        simp [hp, List.length_cons] <;> omega

theorem openCount_remove_le {st : Registry} {sid p : String} :
    openCount (removeRegistration st sid) p ≤ openCount st p := by
  induction st with
  | nil => simp [removeRegistration, openCount]
  | cons hd tl ih =>
    by_cases hhd : hd.socketId = sid
    · simp only [removeRegistration, hhd, beq_self_eq_true, if_true,
        openCount, List.filter_cons]
      by_cases hp : (hd.pathName == p && hd.openFlag) = true <;>
        simp [hp, List.length_cons, openCount] <;> omega
    · simp only [removeRegistration, beq_iff_eq, hhd, if_false, openCount,
        List.filter_cons] at *
      by_cases hp : (hd.pathName == p && hd.openFlag) = true <;>
        simp [hp, List.length_cons] <;> omega

/-- After the disconnect of the sole holder of a path's open records,
no open record for that path remains. -/
theorem no_open_after_markClosed {st : Registry} {sid p : String}
    (hcnt : socketCount st sid ≤ 1)
    (honly : ∀ i ∈ st, i.pathName = p → i.openFlag = true → i.socketId = sid) :
    ∀ i ∈ markClosedBySocketId st sid, ¬(i.pathName = p ∧ i.openFlag = true) := by
  intro i hi ⟨hip, hio⟩
  rcases mem_markClosed hi with hmem | ⟨j, _, _, hij⟩
  · have hsid : i.socketId = sid := honly i hmem hip hio
    have : i.openFlag = false := markClosed_closes hcnt i hi hsid
    simp [this] at hio
  · rw [hij] at hio
    simp at hio

/-! ### Branch characterizations of the register handler -/

theorem findGraphicManifest_some_bundle {bs : List Bundle} {p b : String}
    {m : Graphic} (h : findGraphicManifest bs p b = some m) :
    ∃ bundle, findBundle bs b = some bundle := by
  unfold findGraphicManifest at h
  cases hb : findBundle bs b with
  | none => rw [hb] at h; exact absurd h (by simp)
  | some bundle => exact ⟨bundle, rfl⟩

theorem registerSocket_bundle_none {bs : List Bundle} {st : Registry}
    {sid ip : String} {req : GraphicRegRequest}
    (hb : findBundle bs req.bundleName = none) :
    registerSocket bs st sid ip req = some (false, st) := by
  simp only [registerSocket, hb]

theorem registerSocket_manifest_none {bs : List Bundle} {st : Registry}
    {sid ip : String} {req : GraphicRegRequest} {bundle : Bundle}
    (hb : findBundle bs req.bundleName = some bundle)
    (hm : findGraphicManifest bs
      (normalizePathName req.bundleName req.pathName) req.bundleName = none) :
    registerSocket bs st sid ip req = some (false, st) := by
  simp only [registerSocket, hb, hm]

theorem registerSocket_conflict_same {bs : List Bundle} {st : Registry}
    {sid ip : String} {req : GraphicRegRequest} {bundle : Bundle}
    {m : Graphic} {e : GraphicsInstance}
    (hb : findBundle bs req.bundleName = some bundle)
    (hm : findGraphicManifest bs
      (normalizePathName req.bundleName req.pathName) req.bundleName = some m)
    (hsi : m.singleInstance = true)
    (hfo : findOpenRegistrationByPathName st
      (normalizePathName req.bundleName req.pathName) = some e)
    (hsame : e.socketId = sid) :
    registerSocket bs st sid ip req = some (true, st) := by
  simp only [registerSocket, hb, hm, hfo, hsi, hsame, beq_self_eq_true,
    if_true]

theorem registerSocket_conflict_other {bs : List Bundle} {st : Registry}
    {sid ip : String} {req : GraphicRegRequest} {bundle : Bundle}
    {m : Graphic} {e : GraphicsInstance}
    (hb : findBundle bs req.bundleName = some bundle)
    (hm : findGraphicManifest bs
      (normalizePathName req.bundleName req.pathName) req.bundleName = some m)
    (hsi : m.singleInstance = true)
    (hfo : findOpenRegistrationByPathName st
      (normalizePathName req.bundleName req.pathName) = some e)
    (hne : e.socketId ≠ sid) :
    registerSocket bs st sid ip req = some (false, st) := by
  have heo : e.openFlag = true := (findOpen_some_spec hfo).2.2
  have hbeq : (e.socketId == sid) = false := by simp [hne]
  simp only [registerSocket, hb, hm, hfo, hsi, hbeq, if_true, if_false,
    Bool.false_eq_true, heo, Bool.not_true]

theorem registerSocket_fallthrough_noOpen {bs : List Bundle} {st : Registry}
    {sid ip : String} {req : GraphicRegRequest} {bundle : Bundle} {m : Graphic}
    (hb : findBundle bs req.bundleName = some bundle)
    (hm : findGraphicManifest bs
      (normalizePathName req.bundleName req.pathName) req.bundleName = some m)
    (hfo : findOpenRegistrationByPathName st
      (normalizePathName req.bundleName req.pathName) = none) :
    registerSocket bs st sid ip req = registerFallThrough bundle m st sid ip req := by
  simp only [registerSocket, hb, hm, hfo]

theorem registerSocket_fallthrough_shared {bs : List Bundle} {st : Registry}
    {sid ip : String} {req : GraphicRegRequest} {bundle : Bundle}
    {m : Graphic} {e : GraphicsInstance}
    (hb : findBundle bs req.bundleName = some bundle)
    (hm : findGraphicManifest bs
      (normalizePathName req.bundleName req.pathName) req.bundleName = some m)
    (hsi : m.singleInstance = false)
    (hfo : findOpenRegistrationByPathName st
      (normalizePathName req.bundleName req.pathName) = some e) :
    registerSocket bs st sid ip req = registerFallThrough bundle m st sid ip req := by
  simp only [registerSocket, hb, hm, hfo, hsi, Bool.false_eq_true, if_false]

theorem registerFallThrough_reopen {bundle : Bundle} {m : Graphic}
    {st : Registry} {sid ip : String} {req : GraphicRegRequest}
    {e : GraphicsInstance}
    (hfs : findRegistrationBySocketId st sid = some e) :
    registerFallThrough bundle m st sid ip req =
      some (true, markOpenBySocketId st sid) := by
  simp only [registerFallThrough, hfs]

theorem registerFallThrough_create {bundle : Bundle} {m : Graphic}
    {st : Registry} {sid ip : String} {req : GraphicRegRequest} {g : Bool}
    (hfs : findRegistrationBySocketId st sid = none)
    (hgit : calcBundleGitMismatch bundle req.bundleGit = some g) :
    registerFallThrough bundle m st sid ip req =
      some (true, addRegistration st
        { ipv4 := ip
          timestamp := req.timestamp
          bundleName := req.bundleName
          bundleVersion := req.bundleVersion
          bundleGit := req.bundleGit
          pathName := req.pathName
          singleInstance := m.singleInstance
          socketId := sid
          openFlag := true
          potentiallyOutOfDate :=
            g || calcBundleVersionMismatch bundle req.bundleVersion }) := by
  simp only [registerFallThrough, hfs, hgit]

theorem registerFallThrough_crash {bundle : Bundle} {m : Graphic}
    {st : Registry} {sid ip : String} {req : GraphicRegRequest}
    (hfs : findRegistrationBySocketId st sid = none)
    (hgit : calcBundleGitMismatch bundle req.bundleGit = none) :
    registerFallThrough bundle m st sid ip req = none := by
  simp only [registerFallThrough, hfs, hgit]

/-! ### The exclusivity invariant over traces -/

theorem paths_markOpen {st : Registry} {sid p : String}
    (h : ∀ i ∈ st, i.pathName = p) :
    ∀ i ∈ markOpenBySocketId st sid, i.pathName = p := by
  intro i hi
  rcases mem_markOpen hi with hmem | ⟨j, hj, _, hij⟩
  · exact h i hmem
  · rw [hij]; exact h j hj

theorem paths_markClosed {st : Registry} {sid p : String}
    (h : ∀ i ∈ st, i.pathName = p) :
    ∀ i ∈ markClosedBySocketId st sid, i.pathName = p := by
  intro i hi
  rcases mem_markClosed hi with hmem | ⟨j, hj, _, hij⟩
  · exact h i hmem
  · rw [hij]; exact h j hj

/-- State invariant carried through a single-path trace: every record is
for the path, and at most one of them is open. -/
def ExclusivePathInv (p : String) (st : Registry) : Prop :=
  (∀ i ∈ st, i.pathName = p) ∧ openCount st p ≤ 1

theorem step_preserves_inv {bs : List Bundle} {b p : String} {m : Graphic}
    (hnorm : normalizePathName b p = p)
    (hm : findGraphicManifest bs p b = some m)
    (hsi : m.singleInstance = true)
    {st : Registry} {e : RegEvent} (hev : concernsPath p b e = true)
    (hinv : ExclusivePathInv p st) :
    ExclusivePathInv p (step bs st e) := by
  obtain ⟨hpaths, hcount⟩ := hinv
  obtain ⟨bundle, hb⟩ := findGraphicManifest_some_bundle hm
  cases e with
  | disc sid =>
    show ExclusivePathInv p (disconnectStep st sid)
    unfold disconnectStep
    cases findRegistrationBySocketId st sid with
    | none => exact ⟨hpaths, hcount⟩
    | some _ =>
      exact ⟨paths_markClosed hpaths,
        le_trans openCount_markClosed_le hcount⟩
  | reap sid =>
    exact ⟨fun i hi => hpaths i (mem_of_mem_remove hi),
      le_trans openCount_remove_le hcount⟩
  | reg sid ip req =>
    simp only [concernsPath, Bool.and_eq_true, beq_iff_eq] at hev
    obtain ⟨hreqp, hreqb⟩ := hev
    have hb2 : findBundle bs req.bundleName = some bundle := by
      rw [hreqb]; exact hb
    have hm2 : findGraphicManifest bs
        (normalizePathName req.bundleName req.pathName) req.bundleName
        = some m := by
      rw [hreqb, hreqp, hnorm]; exact hm
    have hnorm2 : normalizePathName req.bundleName req.pathName = p := by
      rw [hreqb, hreqp, hnorm]
    show ExclusivePathInv p
      (match registerSocket bs st sid ip req with
        | some (_, st2) => st2
        | none => st)
    cases hfo : findOpenRegistrationByPathName st
        (normalizePathName req.bundleName req.pathName) with
    | some e0 =>
      by_cases hsame : e0.socketId = sid
      · rw [registerSocket_conflict_same hb2 hm2 hsi hfo hsame]
        exact ⟨hpaths, hcount⟩
      · rw [registerSocket_conflict_other hb2 hm2 hsi hfo hsame]
        exact ⟨hpaths, hcount⟩
    | none =>
      rw [registerSocket_fallthrough_noOpen hb2 hm2 hfo]
      have hzero : openCount st p = 0 := by
        rw [hnorm2] at hfo
        exact openCount_eq_zero_of_findOpen_none hfo
      cases hfs : findRegistrationBySocketId st sid with
      | some e1 =>
        rw [registerFallThrough_reopen hfs]
        refine ⟨paths_markOpen hpaths, ?_⟩
        calc openCount (markOpenBySocketId st sid) p
            ≤ openCount st p + 1 := openCount_markOpen_le
          _ ≤ 1 := by omega
      | none =>
        cases hgit : calcBundleGitMismatch bundle req.bundleGit with
        | none =>
          rw [registerFallThrough_crash hfs hgit]
          exact ⟨hpaths, hcount⟩
        | some g =>
          rw [registerFallThrough_create hfs hgit]
          constructor
          · intro i hi
            unfold addRegistration at hi
            rcases List.mem_append.mp hi with hmem | hmem
            · exact hpaths i hmem
            · simp only [List.mem_singleton] at hmem
              rw [hmem]
              exact hreqp
          · unfold addRegistration
            rw [openCount_append, hzero]
            simp [openCount, List.filter, hreqp]

theorem run_preserves_inv {bs : List Bundle} {b p : String} {m : Graphic}
    (hnorm : normalizePathName b p = p)
    (hm : findGraphicManifest bs p b = some m)
    (hsi : m.singleInstance = true) :
    ∀ (tr : List RegEvent) (st : Registry),
      (∀ e ∈ tr, concernsPath p b e = true) →
      ExclusivePathInv p st → ExclusivePathInv p (run bs st tr) := by
  intro tr
  induction tr with
  | nil => intro st _ hinv; exact hinv
  | cons e es ih =>
    intro st htr hinv
    exact ih (step bs st e)
      (fun e2 he2 => htr e2 (List.mem_cons_of_mem e he2))
      (step_preserves_inv hnorm hm hsi
        (htr e (List.mem_cons_self e es)) hinv)

/-! ### A concrete world used by witnesses and counterexamples -/

def exGit1 : GitData := ⟨"abc", "master"⟩

def exGit2 : GitData := ⟨"def", "master"⟩

def exPath : String := "/bundles/demo/graphics/main.html"

def exOtherPath : String := "/bundles/demo/graphics/other.html"

def exMain : Graphic := ⟨exPath, true⟩

def exOther : Graphic := ⟨exOtherPath, false⟩

def exBundle : Bundle := ⟨"demo", "1.0.0", some exGit1, [exMain, exOther]⟩

def exBundles : List Bundle := [exBundle]

def exReq : GraphicRegRequest := ⟨"demo", exPath, "1.0.0", some exGit1, 0⟩

def exOtherReq : GraphicRegRequest := ⟨"demo", exOtherPath, "1.0.0", some exGit1, 0⟩

/-- The record `graphic:registerSocket` creates for socket `A` and
request `exReq`. -/
def exRecA : GraphicsInstance :=
  ⟨"ip", 0, "demo", "1.0.0", some exGit1, exPath, true, "A", true, false⟩

/-! ### C1: the availability query -/

/-- C1, counterexample: a registry holding an open record for `exPath`
whose `singleInstance` flag is `true`, on which `queryAvailability`
answers `false` — refuting "queryAvailability(p) returns true if and
only if a record with pathName = p, open = true, and exclusive = true
exists": such a record exists here and the query returns `false` (the
handler answers `!this._findOpenRegistrationByPathName(pathName)`). -/
theorem c1_counterexample :
    (exRecA ∈ ([exRecA] : Registry) ∧ exRecA.pathName = exPath ∧
      exRecA.openFlag = true ∧ exRecA.singleInstance = true) ∧
    queryAvailability [exRecA] exPath = false := by
  decide

/-- C1, amended: `queryAvailability(p)` reports *availability*, not
occupancy: it returns `true` iff no record with `pathName = p` and
`open = true` exists, regardless of the record's exclusive flag; in
particular it returns `true` immediately after the open record's
disconnect has been processed, even before the reap removes the
record. -/
theorem c1_amended_query_availability :
    (∀ (st : Registry) (p : String),
      queryAvailability st p = true ↔
        ∀ i ∈ st, ¬(i.pathName = p ∧ i.openFlag = true)) ∧
    (∀ (st : Registry) (A p : String),
      socketCount st A ≤ 1 →
      (∀ i ∈ st, i.pathName = p → i.openFlag = true → i.socketId = A) →
      queryAvailability (disconnectStep st A) p = true) := by
  constructor
  · intro st p
    constructor
    · intro h
      apply findOpen_eq_none_iff.mp
      unfold queryAvailability at h
      cases hfo : findOpenRegistrationByPathName st p with
      | none => rfl
      | some e => rw [hfo] at h; simp at h
    · intro h
      unfold queryAvailability
      rw [findOpen_eq_none_iff.mpr h]
      rfl
  · intro st A p hcnt honly
    have hnone : findOpenRegistrationByPathName (disconnectStep st A) p
        = none := by
      unfold disconnectStep
      cases hfs : findRegistrationBySocketId st A with
      | none =>
        apply findOpen_eq_none_iff.mpr
        intro i hi ⟨hip, hio⟩
        exact (findSid_eq_none_iff.mp hfs i hi) (honly i hi hip hio)
      | some e =>
        exact findOpen_eq_none_iff.mpr (no_open_after_markClosed hcnt honly)
    unfold queryAvailability
    rw [hnone]
    rfl

/-- Witness for C1's amended theorem at a concrete registry: the empty
registry is available, and so is the one-record registry right after
its owner's disconnect is processed. -/
theorem c1_amended_query_availability_witness :
    queryAvailability ([] : Registry) exPath = true ∧
    queryAvailability (disconnectStep [exRecA] "A") exPath = true :=
  ⟨(c1_amended_query_availability.1 [] exPath).mpr (by decide),
    c1_amended_query_availability.2 [exRecA] "A" exPath (by decide)
      (by decide)⟩

/-! ### C4: the reap does not check the open flag -/

/-- C4, counterexample: a socket registers, disconnects, and re-registers
within the grace window (re-opening its record); when the reap fires it
removes the record anyway, because `_removeRegistration` splices by
socket id without checking `open` — refuting "the delayed reap never
removes a record whose open flag is currently true". -/
theorem c4_counterexample :
    openCount (run exBundles []
      [RegEvent.reg "A" "ip" exReq, RegEvent.disc "A",
        RegEvent.reg "A" "ip" exReq]) exPath = 1 ∧
    run exBundles []
      [RegEvent.reg "A" "ip" exReq, RegEvent.disc "A",
        RegEvent.reg "A" "ip" exReq, RegEvent.reap "A"] = [] := by
  decide

/-- C4, amended: the reap scheduled by a disconnect removes the first
record with the disconnected socket id unconditionally — its current
`open` flag is not consulted, so a record re-opened before the grace
window elapses is removed when the timer fires; the deletion is a
no-op only when no record with that socket id remains. -/
theorem c4_amended_reap_unconditional :
    (∀ (pre post : Registry) (a : GraphicsInstance) (sid : String),
      (∀ i ∈ pre, i.socketId ≠ sid) → a.socketId = sid →
      removeRegistration (pre ++ a :: post) sid = pre ++ post) ∧
    (∀ (st : Registry) (sid : String),
      (∀ i ∈ st, i.socketId ≠ sid) → removeRegistration st sid = st) := by
  constructor
  · intro pre post a sid hpre ha
    induction pre with
    | nil =>
      have hbeq : (a.socketId == sid) = true := by simp [ha]
      simp [removeRegistration, hbeq]
    | cons hd tl ih =>
      have hhd : hd.socketId ≠ sid := hpre hd (List.mem_cons_self hd tl)
      have hbeq : (hd.socketId == sid) = false := by simp [hhd]
      simp only [List.cons_append, removeRegistration, hbeq,
        Bool.false_eq_true, if_false, List.cons.injEq, true_and]
      exact ih (fun i hi => hpre i (List.mem_cons_of_mem hd hi))
  · intro st sid h
    induction st with
    | nil => rfl
    | cons hd tl ih =>
      have hhd : hd.socketId ≠ sid := h hd (List.mem_cons_self hd tl)
      have hbeq : (hd.socketId == sid) = false := by simp [hhd]
      simp only [removeRegistration, hbeq, Bool.false_eq_true, if_false,
        List.cons.injEq, true_and]
      exact ih (fun i hi => h i (List.mem_cons_of_mem hd hi))

/-- Witness for C4's amended theorem: the reap removes a concrete open
record, and is a no-op on a registry without the socket id. -/
theorem c4_amended_reap_unconditional_witness :
    removeRegistration ([] ++ exRecA :: []) "A" = [] ++ ([] : Registry) ∧
    removeRegistration [exRecA] "B" = [exRecA] :=
  ⟨c4_amended_reap_unconditional.1 [] [] exRecA "A" (by decide) (by decide),
    c4_amended_reap_unconditional.2 [exRecA] "B" (by decide)⟩

/-! ### C2: the exclusivity invariant -/

/-- C2: over every sequence of register/disconnect/reap events that
concerns one viewPath whose manifest is `singleInstance`, the registry
reached from empty has at most one open record for that path (every
such trace — and hence every prefix, i.e. every observation point —
lands in such a state), and a register request for that path from a
socket other than the open record's owner is answered not-accepted
with the registry unchanged while that record is open. -/
theorem c2_exclusivity_invariant (bs : List Bundle) (b p : String)
    (m : Graphic)
    (hnorm : normalizePathName b p = p)
    (hm : findGraphicManifest bs p b = some m)
    (hsi : m.singleInstance = true) :
    (∀ tr : List RegEvent, (∀ e ∈ tr, concernsPath p b e = true) →
      openCount (run bs [] tr) p ≤ 1) ∧
    (∀ (st : Registry) (sid ip : String) (req : GraphicRegRequest)
        (e : GraphicsInstance),
      req.pathName = p → req.bundleName = b →
      findOpenRegistrationByPathName st p = some e → e.socketId ≠ sid →
      registerSocket bs st sid ip req = some (false, st)) := by
  obtain ⟨bundle, hb⟩ := findGraphicManifest_some_bundle hm
  constructor
  · intro tr htr
    exact (run_preserves_inv hnorm hm hsi tr [] htr
      ⟨by simp, by simp [openCount]⟩).2
  · intro st sid ip req e hrp hrb hfo hne
    have hb2 : findBundle bs req.bundleName = some bundle := by
      rw [hrb]; exact hb
    have hm2 : findGraphicManifest bs
        (normalizePathName req.bundleName req.pathName) req.bundleName
        = some m := by
      rw [hrb, hrp, hnorm]; exact hm
    have hfo2 : findOpenRegistrationByPathName st
        (normalizePathName req.bundleName req.pathName) = some e := by
      rw [hrb, hrp, hnorm]; exact hfo
    exact registerSocket_conflict_other hb2 hm2 hsi hfo2 hne

/-- Witness for C2 at the concrete demo world: a trace with a denied
second registration keeps at most one open record, and the concrete
denial leaves the registry untouched. -/
theorem c2_exclusivity_invariant_witness :
    openCount (run exBundles []
      [RegEvent.reg "A" "ip" exReq, RegEvent.reg "B" "ip" exReq,
        RegEvent.disc "A"]) exPath ≤ 1 ∧
    registerSocket exBundles [exRecA] "B" "ip" exReq
      = some (false, [exRecA]) := by
  have h := c2_exclusivity_invariant exBundles "demo" exPath exMain
    (by decide) (by decide) (by decide)
  exact ⟨h.1 _ (by decide),
    h.2 [exRecA] "B" "ip" exReq exRecA (by decide) (by decide) (by decide)
      (by decide)⟩

/-! ### C3: declined registrations do not mutate the registry -/

/-- C3: each way a registration is declined — the bundle name does not
resolve, the normalized path is not a declared graphic of the bundle,
or an exclusivity conflict with a different socket's open record —
returns not-accepted and the registry exactly as it was: no record is
created and no record is mutated. -/
theorem c3_decline_no_mutation :
    (∀ (bs : List Bundle) (st : Registry) (sid ip : String)
        (req : GraphicRegRequest),
      findBundle bs req.bundleName = none →
      registerSocket bs st sid ip req = some (false, st)) ∧
    (∀ (bs : List Bundle) (st : Registry) (sid ip : String)
        (req : GraphicRegRequest) (bundle : Bundle),
      findBundle bs req.bundleName = some bundle →
      findGraphicManifest bs (normalizePathName req.bundleName req.pathName)
        req.bundleName = none →
      registerSocket bs st sid ip req = some (false, st)) ∧
    (∀ (bs : List Bundle) (st : Registry) (sid ip : String)
        (req : GraphicRegRequest) (m : Graphic) (e : GraphicsInstance),
      findGraphicManifest bs (normalizePathName req.bundleName req.pathName)
        req.bundleName = some m →
      m.singleInstance = true →
      findOpenRegistrationByPathName st
        (normalizePathName req.bundleName req.pathName) = some e →
      e.socketId ≠ sid →
      registerSocket bs st sid ip req = some (false, st)) := by
  refine ⟨?_, ?_, ?_⟩
  · intro bs st sid ip req hb
    exact registerSocket_bundle_none hb
  · intro bs st sid ip req bundle hb hm
    exact registerSocket_manifest_none hb hm
  · intro bs st sid ip req m e hm hsi hfo hne
    obtain ⟨bundle, hb⟩ := findGraphicManifest_some_bundle hm
    exact registerSocket_conflict_other hb hm hsi hfo hne

/-- A bundle declaring no graphics, for the unknown-graphic decline. -/
def exBareBundle : Bundle := ⟨"demo", "1.0.0", some exGit1, []⟩

/-- Witness for C3: the three declines at concrete inputs, each leaving
the concrete registry unchanged. -/
theorem c3_decline_no_mutation_witness :
    registerSocket [] [exRecA] "B" "ip" exReq = some (false, [exRecA]) ∧
    registerSocket [exBareBundle] [exRecA] "B" "ip" exReq
      = some (false, [exRecA]) ∧
    registerSocket exBundles [exRecA] "C" "ip" exReq
      = some (false, [exRecA]) :=
  ⟨c3_decline_no_mutation.1 [] [exRecA] "B" "ip" exReq (by decide),
    c3_decline_no_mutation.2.1 [exBareBundle] [exRecA] "B" "ip" exReq
      exBareBundle (by decide) (by decide),
    c3_decline_no_mutation.2.2 exBundles [exRecA] "C" "ip" exReq exMain
      exRecA (by decide) (by decide) (by decide) (by decide)⟩

/-! ### C7: idempotent re-registration -/

/-- C7: a register call from a socket that already holds the (sole)
registration carrying its socket id, open and for the same normalized
viewPath, is accepted and leaves the registry exactly as it was — no
second record is created and the caller's record stays open.  (The
hypotheses — the socket id occurs on one record and every open record
for the path is the caller's — hold in every state reachable from an
empty registry, where `_addRegistration` runs only when
`_findRegistrationBySocketId` found nothing.) -/
theorem c7_idempotent_reregistration (bs : List Bundle) (st : Registry)
    (A ip : String) (req : GraphicRegRequest) (bundle : Bundle)
    (m : Graphic) (a : GraphicsInstance)
    (hb : findBundle bs req.bundleName = some bundle)
    (hm : findGraphicManifest bs
      (normalizePathName req.bundleName req.pathName) req.bundleName
      = some m)
    (ha : a ∈ st) (hasid : a.socketId = A)
    (hap : a.pathName = normalizePathName req.bundleName req.pathName)
    (hao : a.openFlag = true)
    (hcnt : socketCount st A ≤ 1)
    (honly : ∀ i ∈ st,
      i.pathName = normalizePathName req.bundleName req.pathName →
      i.openFlag = true → i.socketId = A) :
    registerSocket bs st A ip req = some (true, st) := by
  cases hfo : findOpenRegistrationByPathName st
      (normalizePathName req.bundleName req.pathName) with
  | none =>
    exact absurd ⟨hap, hao⟩ (findOpen_eq_none_iff.mp hfo a ha)
  | some e =>
    obtain ⟨hemem, hep, heo⟩ := findOpen_some_spec hfo
    have hesid : e.socketId = A := honly e hemem hep heo
    cases hsi : m.singleInstance with
    | true =>
      exact registerSocket_conflict_same hb hm hsi hfo hesid
    | false =>
      rw [registerSocket_fallthrough_shared hb hm hsi hfo]
      cases hfs : findRegistrationBySocketId st A with
      | none => exact absurd hasid (findSid_eq_none_iff.mp hfs a ha)
      | some e1 =>
        rw [registerFallThrough_reopen hfs]
        have hopen : ∀ i ∈ st, i.socketId = A → i.openFlag = true := by
          intro i hi hiA
          rw [socketCount_le_one_unique hcnt ha hasid i hi hiA]
          exact hao
        rw [markOpen_eq_self hopen]

/-- Witness for C7: socket `A` re-registers the graphic it already holds
open; the call is accepted and the registry is unchanged. -/
theorem c7_idempotent_reregistration_witness :
    registerSocket exBundles [exRecA] "A" "ip" exReq
      = some (true, [exRecA]) :=
  c7_idempotent_reregistration exBundles [exRecA] "A" "ip" exReq exBundle
    exMain exRecA (by decide) (by decide) (by decide) (by decide)
    (by decide) (by decide) (by decide) (by decide)

/-! ### C5: reuse during the grace window -/

/-- C5: when connection `A` holds the only open record for an exclusive
viewPath and disconnects, a register from a fresh connection `B` for the
same path during the grace window (the closed record has not been
reaped yet) is accepted, and exactly one record for that path is open
afterwards. -/
theorem c5_grace_window_reuse (bs : List Bundle) (st : Registry)
    (b p A B ip : String) (req : GraphicRegRequest) (bundle : Bundle)
    (m : Graphic) (a : GraphicsInstance) (g : Bool)
    (hb : findBundle bs b = some bundle)
    (hm : findGraphicManifest bs p b = some m)
    (hsi : m.singleInstance = true)
    (hnorm : normalizePathName b p = p)
    (hrb : req.bundleName = b) (hrp : req.pathName = p)
    (hgit : calcBundleGitMismatch bundle req.bundleGit = some g)
    (ha : a ∈ st) (haA : a.socketId = A) (hap : a.pathName = p)
    (hao : a.openFlag = true)
    (hcnt : socketCount st A ≤ 1)
    (honly : ∀ i ∈ st, i.pathName = p → i.openFlag = true → i.socketId = A)
    (hB : ∀ i ∈ st, i.socketId ≠ B) :
    ∃ st2, registerSocket bs (disconnectStep st A) B ip req
        = some (true, st2) ∧ openCount st2 p = 1 := by
  have hdisc : disconnectStep st A = markClosedBySocketId st A := by
    unfold disconnectStep
    cases hfs : findRegistrationBySocketId st A with
    | none => exact absurd haA (findSid_eq_none_iff.mp hfs a ha)
    | some e => rfl
  have hfo : findOpenRegistrationByPathName (markClosedBySocketId st A) p
      = none :=
    findOpen_eq_none_iff.mpr (no_open_after_markClosed hcnt honly)
  have hBnone : findRegistrationBySocketId (markClosedBySocketId st A) B
      = none := by
    apply findSid_eq_none_iff.mpr
    intro i hi
    rcases mem_markClosed hi with hmem | ⟨j, hj, _, hij⟩
    · exact hB i hmem
    · rw [hij]; exact hB j hj
  have hb2 : findBundle bs req.bundleName = some bundle := by
    rw [hrb]; exact hb
  have hm2 : findGraphicManifest bs
      (normalizePathName req.bundleName req.pathName) req.bundleName
      = some m := by
    rw [hrb, hrp, hnorm]; exact hm
  have hfo2 : findOpenRegistrationByPathName (markClosedBySocketId st A)
      (normalizePathName req.bundleName req.pathName) = none := by
    rw [hrb, hrp, hnorm]; exact hfo
  rw [hdisc, registerSocket_fallthrough_noOpen hb2 hm2 hfo2,
    registerFallThrough_create hBnone hgit]
  refine ⟨_, rfl, ?_⟩
  unfold addRegistration
  rw [openCount_append, openCount_eq_zero_of_findOpen_none hfo]
  simp [openCount, hrp]

/-- Witness for C5: `A`'s record is marked closed by the disconnect, and
`B`'s registration for the same exclusive path is then accepted with
exactly one open record for the path in the result. -/
theorem c5_grace_window_reuse_witness :
    ∃ st2, registerSocket exBundles (disconnectStep [exRecA] "A") "B" "ip"
        exReq = some (true, st2) ∧ openCount st2 exPath = 1 :=
  c5_grace_window_reuse exBundles [exRecA] "demo" exPath "A" "B" "ip"
    exReq exBundle exMain exRecA false (by decide) (by decide) (by decide)
    (by decide) (by decide) (by decide) (by decide) (by decide) (by decide)
    (by decide) (by decide) (by decide) (by decide) (by decide)

/-! ### C6: staleness reconciliation -/

theorem updateInstanceStatuses_get {bs : List Bundle} :
    ∀ {st st2 : Registry}, updateInstanceStatuses bs st = some st2 →
      ∀ (k : Nat) (hk : k < st.length) (hk2 : k < st2.length),
        updateInstanceStatus bs (st.get ⟨k, hk⟩)
          = some (st2.get ⟨k, hk2⟩) := by
  intro st
  induction st with
  | nil =>
    intro st2 h k hk hk2
    exact absurd hk (by simp)
  | cons hd tl ih =>
    intro st2 h k hk hk2
    unfold updateInstanceStatuses at h
    cases h1 : updateInstanceStatus bs hd with
    | none => rw [h1] at h; exact absurd h (by simp)
    | some i2 =>
      rw [h1] at h
      cases h2 : updateInstanceStatuses bs tl with
      | none => rw [h2] at h; exact absurd h (by simp)
      | some rest2 =>
        rw [h2] at h
        injection h with h
        subst h
        cases k with
        | zero => simpa using h1
        | succ k =>
          exact ih h2 k (Nat.lt_of_succ_lt_succ hk)
            (Nat.lt_of_succ_lt_succ hk2)

theorem updateInstanceStatus_compute {bs : List Bundle}
    {i : GraphicsInstance} {bundle : Bundle} {m : Graphic} {g : Bool}
    (hb : findBundle bs i.bundleName = some bundle)
    (hm : findGraphicManifest bs i.pathName i.bundleName = some m)
    (hgit : calcBundleGitMismatch bundle i.bundleGit = some g) :
    updateInstanceStatus bs i = some { i with
      potentiallyOutOfDate :=
        g || calcBundleVersionMismatch bundle i.bundleVersion
      singleInstance := m.singleInstance } := by
  simp only [updateInstanceStatus, hb, hm, hgit]

theorem updateInstanceStatus_crash {bs : List Bundle}
    {i : GraphicsInstance} {bundle : Bundle} {m : Graphic}
    (hb : findBundle bs i.bundleName = some bundle)
    (hm : findGraphicManifest bs i.pathName i.bundleName = some m)
    (hgit : calcBundleGitMismatch bundle i.bundleGit = none) :
    updateInstanceStatus bs i = none := by
  simp only [updateInstanceStatus, hb, hm, hgit]

theorem updateInstanceStatus_spec {bs : List Bundle}
    {i i2 : GraphicsInstance} {bundle : Bundle} {m : Graphic}
    (hb : findBundle bs i.bundleName = some bundle)
    (hm : findGraphicManifest bs i.pathName i.bundleName = some m)
    (h : updateInstanceStatus bs i = some i2) :
    i2.singleInstance = m.singleInstance ∧
    (i2.potentiallyOutOfDate = true ↔
      (i.bundleVersion ≠ bundle.version ∨
        i.bundleGit.map GitData.hash ≠ bundle.git.map GitData.hash)) := by
  cases hgit : calcBundleGitMismatch bundle i.bundleGit with
  | none =>
    rw [updateInstanceStatus_crash hb hm hgit] at h
    exact Option.noConfusion h
  | some g =>
    rw [updateInstanceStatus_compute hb hm hgit] at h
    injection h with h
    subst h
    unfold calcBundleGitMismatch at hgit
    refine ⟨rfl, ?_⟩
    show (g || calcBundleVersionMismatch bundle i.bundleVersion) = true ↔ _
    cases hig : i.bundleGit with
    | none =>
      cases hbg : bundle.git with
      | none =>
        rw [hig, hbg] at hgit
        exact absurd hgit (by simp)
      | some bg =>
        rw [hig, hbg] at hgit
        injection hgit with hgit
        rw [← hgit]
        simp
    | some ag =>
      cases hbg : bundle.git with
      | none =>
        rw [hig, hbg] at hgit
        injection hgit with hgit
        rw [← hgit]
        simp
      | some bg =>
        rw [hig, hbg] at hgit
        injection hgit with hgit
        rw [← hgit]
        simp only [Bool.or_eq_true, bne_iff_ne, Option.map_some',
          ne_eq, Option.some.injEq, calcBundleVersionMismatch]
        constructor
        · rintro (h | h)
          · exact Or.inr h
          · exact Or.inl (Ne.symm h)
        · rintro (h | h)
          · exact Or.inr (Ne.symm h)
          · exact Or.inl h

/-- C6: when a bundle-change (or git-change) rescan completes, every
record whose bundle and graphic manifest still resolve has its
`singleInstance` flag recomputed from the current manifest, and its
`potentiallyOutOfDate` flag true exactly when the captured
`bundleVersion` differs from the bundle's current version or the
captured git hash differs from the bundle's current git hash
(presence/absence of git data counting as a difference); in
particular a record captured at one revision becomes stale once the
bundle reports a different revision. -/
theorem c6_staleness_recompute (bs : List Bundle) (st st2 : Registry)
    (k : Nat) (bundle : Bundle) (m : Graphic)
    (h : updateInstanceStatuses bs st = some st2)
    (hk : k < st.length) (hk2 : k < st2.length)
    (hb : findBundle bs (st.get ⟨k, hk⟩).bundleName = some bundle)
    (hm : findGraphicManifest bs (st.get ⟨k, hk⟩).pathName
      (st.get ⟨k, hk⟩).bundleName = some m) :
    (st2.get ⟨k, hk2⟩).singleInstance = m.singleInstance ∧
    ((st2.get ⟨k, hk2⟩).potentiallyOutOfDate = true ↔
      ((st.get ⟨k, hk⟩).bundleVersion ≠ bundle.version ∨
        (st.get ⟨k, hk⟩).bundleGit.map GitData.hash
          ≠ bundle.git.map GitData.hash)) :=
  updateInstanceStatus_spec hb hm (updateInstanceStatuses_get h k hk hk2)

/-- The demo bundle after its git revision moved from `abc` to `def`. -/
def exBundleV2 : Bundle := ⟨"demo", "1.0.0", some exGit2, [exMain, exOther]⟩

def exBundlesV2 : List Bundle := [exBundleV2]

/-- Record `exRecA` as the rescan rewrites it once the registry is at the new
revision: `potentiallyOutOfDate` has become true. -/
def exRecAStale : GraphicsInstance :=
  ⟨"ip", 0, "demo", "1.0.0", some exGit1, exPath, true, "A", true, true⟩

/-- Witness for C6: a record captured at revision `abc` goes stale when
the registry reports revision `def`. -/
theorem c6_staleness_recompute_witness :
    updateInstanceStatuses exBundlesV2 [exRecA] = some [exRecAStale] ∧
    (([exRecAStale] : Registry).get ⟨0, Nat.zero_lt_one⟩).potentiallyOutOfDate
      = true := by
  refine ⟨by decide, ?_⟩
  have h := c6_staleness_recompute exBundlesV2 [exRecA] [exRecAStale] 0
    exBundleV2 exMain (by decide) (by decide) (by decide) (by decide)
    (by decide)
  exact h.2.mpr (by decide)

/-! ### C9: the staleness computation is not total -/

/-- A bundle that carries no git metadata, and a client request/record
that reports none either. -/
def exPlainBundle : Bundle :=
  ⟨"plain", "2.0.0", none, [⟨"/bundles/plain/graphics/main.html", false⟩]⟩

def exPlainReq : GraphicRegRequest :=
  ⟨"plain", "/bundles/plain/graphics/main.html", "2.0.0", none, 0⟩

def exPlainRec : GraphicsInstance :=
  ⟨"ip", 0, "plain", "2.0.0", none, "/bundles/plain/graphics/main.html",
    false, "A", true, false⟩

/-- C9: when neither the request nor the bundle has git metadata,
`calcBundleGitMismatch` dereferences the absent value and throws
instead of returning false; consequently a register call that reaches
record creation throws (no record is created, the callback never runs),
and so does the `_updateInstanceStatuses` body for such a record. -/
theorem c9_git_absent_crash :
    (∀ bundle : Bundle, bundle.git = none →
      calcBundleGitMismatch bundle none = none) ∧
    (∀ (bs : List Bundle) (st : Registry) (sid ip : String)
        (req : GraphicRegRequest) (bundle : Bundle) (m : Graphic),
      findBundle bs req.bundleName = some bundle →
      findGraphicManifest bs (normalizePathName req.bundleName req.pathName)
        req.bundleName = some m →
      bundle.git = none → req.bundleGit = none →
      findOpenRegistrationByPathName st
        (normalizePathName req.bundleName req.pathName) = none →
      findRegistrationBySocketId st sid = none →
      registerSocket bs st sid ip req = none) ∧
    (∀ (bs : List Bundle) (i : GraphicsInstance) (bundle : Bundle)
        (m : Graphic),
      findBundle bs i.bundleName = some bundle →
      findGraphicManifest bs i.pathName i.bundleName = some m →
      bundle.git = none → i.bundleGit = none →
      updateInstanceStatus bs i = none) := by
  have hcalc : ∀ bundle : Bundle, bundle.git = none →
      calcBundleGitMismatch bundle none = none := by
    intro bundle hg
    unfold calcBundleGitMismatch
    rw [hg]
  refine ⟨hcalc, ?_, ?_⟩
  · intro bs st sid ip req bundle m hb hm hg hrg hfo hfs
    have hgit : calcBundleGitMismatch bundle req.bundleGit = none := by
      rw [hrg]; exact hcalc bundle hg
    rw [registerSocket_fallthrough_noOpen hb hm hfo,
      registerFallThrough_crash hfs hgit]
  · intro bs i bundle m hb hm hg hig
    have hgit : calcBundleGitMismatch bundle i.bundleGit = none := by
      rw [hig]; exact hcalc bundle hg
    exact updateInstanceStatus_crash hb hm hgit

/-- Witness for C9 at the concrete git-less world: the mismatch helper,
the register handler and the rescan body all throw. -/
theorem c9_git_absent_crash_witness :
    calcBundleGitMismatch exPlainBundle none = none ∧
    registerSocket [exPlainBundle] [] "A" "ip" exPlainReq = none ∧
    updateInstanceStatus [exPlainBundle] exPlainRec = none :=
  ⟨c9_git_absent_crash.1 exPlainBundle (by decide),
    c9_git_absent_crash.2.1 [exPlainBundle] [] "A" "ip" exPlainReq
      exPlainBundle ⟨"/bundles/plain/graphics/main.html", false⟩
      (by decide) (by decide) (by decide) (by decide) (by decide)
      (by decide),
    c9_git_absent_crash.2.2 [exPlainBundle] exPlainRec exPlainBundle
      ⟨"/bundles/plain/graphics/main.html", false⟩ (by decide) (by decide)
      (by decide) (by decide)⟩

/-! ### C10: registering a second path from the same socket -/

theorem markOpen_fields (st : Registry) (sid : String) :
    (markOpenBySocketId st sid).map (fun i =>
      (i.ipv4, i.timestamp, i.bundleName, i.bundleVersion, i.bundleGit,
        i.pathName, i.singleInstance, i.socketId, i.potentiallyOutOfDate))
    = st.map (fun i =>
      (i.ipv4, i.timestamp, i.bundleName, i.bundleVersion, i.bundleGit,
        i.pathName, i.singleInstance, i.socketId,
        i.potentiallyOutOfDate)) := by
  induction st with
  | nil => rfl
  | cons hd tl ih =>
    by_cases hhd : hd.socketId = sid
    · have hbeq : (hd.socketId == sid) = true := by simp [hhd]
      simp [markOpenBySocketId, hbeq, ih]
    · have hbeq : (hd.socketId == sid) = false := by simp [hhd]
      simp [markOpenBySocketId, hbeq, ih]

/-- C10: a socket that already holds a registration (for any path) and
registers a different, admitted path `p` gets `accepted`, yet no record
for `p` appears: the handler only sets its existing record's `open`
flag, and every other field of every record — path, captured version,
staleness — is untouched. -/
theorem c10_cross_path_register_ignores_path (bs : List Bundle)
    (st : Registry) (A ip : String) (req : GraphicRegRequest)
    (bundle : Bundle) (m : Graphic) (a : GraphicsInstance)
    (hb : findBundle bs req.bundleName = some bundle)
    (hm : findGraphicManifest bs
      (normalizePathName req.bundleName req.pathName) req.bundleName
      = some m)
    (hfs : findRegistrationBySocketId st A = some a)
    (hfo : findOpenRegistrationByPathName st
      (normalizePathName req.bundleName req.pathName) = none)
    (hnoP : ∀ i ∈ st, i.pathName ≠ req.pathName) :
    registerSocket bs st A ip req = some (true, markOpenBySocketId st A) ∧
    (∀ i ∈ markOpenBySocketId st A, i.pathName ≠ req.pathName) ∧
    (markOpenBySocketId st A).map (fun i =>
      (i.ipv4, i.timestamp, i.bundleName, i.bundleVersion, i.bundleGit,
        i.pathName, i.singleInstance, i.socketId, i.potentiallyOutOfDate))
      = st.map (fun i =>
        (i.ipv4, i.timestamp, i.bundleName, i.bundleVersion, i.bundleGit,
          i.pathName, i.singleInstance, i.socketId,
          i.potentiallyOutOfDate)) := by
  refine ⟨?_, ?_, markOpen_fields st A⟩
  · rw [registerSocket_fallthrough_noOpen hb hm hfo,
      registerFallThrough_reopen hfs]
  · intro i hi
    rcases mem_markOpen hi with hmem | ⟨j, hj, _, hij⟩
    · exact hnoP i hmem
    · rw [hij]; exact hnoP j hj

/-- Socket `A`'s record for the non-exclusive `other` graphic. -/
def exRecOtherA : GraphicsInstance :=
  ⟨"ip", 0, "demo", "1.0.0", some exGit1, exOtherPath, false, "A", true,
    false⟩

/-- Witness for C10: `A` holds the `other.html` record and registers
`main.html`; the call is accepted but the registry still has no
`main.html` record and `A`'s record is unchanged. -/
theorem c10_cross_path_register_ignores_path_witness :
    registerSocket exBundles [exRecOtherA] "A" "ip" exReq
      = some (true, markOpenBySocketId [exRecOtherA] "A") ∧
    (∀ i ∈ markOpenBySocketId [exRecOtherA] "A",
      i.pathName ≠ exReq.pathName) ∧
    (markOpenBySocketId [exRecOtherA] "A").map (fun i =>
      (i.ipv4, i.timestamp, i.bundleName, i.bundleVersion, i.bundleGit,
        i.pathName, i.singleInstance, i.socketId, i.potentiallyOutOfDate))
      = ([exRecOtherA] : Registry).map (fun i =>
        (i.ipv4, i.timestamp, i.bundleName, i.bundleVersion, i.bundleGit,
          i.pathName, i.singleInstance, i.socketId,
          i.potentiallyOutOfDate)) :=
  c10_cross_path_register_ignores_path exBundles [exRecOtherA] "A" "ip"
    exReq exBundle exMain exRecOtherA (by decide) (by decide) (by decide)
    (by decide) (by decide)

end NodeCG
